import Mathlib

/-!
Verification of the digestly backend transcript-processing core.

Strings from the Python source are embedded as `List Char` (Python `str`
is a sequence of code points, as is `String.data`).  Durations and
timestamps are embedded as `Int`/`Rat`.  Each definition mirrors one
function of the repository; the source file and line ranges are named in
the doc comments.
-/

namespace Digestly

/-- Coerce a Lean string literal to the `List Char` representation used
throughout this development. -/
def lc (s : String) : List Char := s.data

/-- `matchAt hay needle i` holds when `needle` occurs in `hay` starting at
index `i` (the primitive behind Python substring search). -/
def matchAt (hay needle : List Char) (i : Nat) : Bool :=
  decide ((hay.drop i).take needle.length = needle)

/-- Python `str.find`: index of the first occurrence of `needle` in `hay`,
`none` when absent (Python returns -1). -/
def findSub (hay needle : List Char) : Option Nat :=
  ((List.range (hay.length + 1)).filter (fun i => matchAt hay needle i)).head?

/-- Python `str.rfind`: index of the last occurrence of `needle` in `hay`,
`none` when absent (Python returns -1). -/
def rfindSub (hay needle : List Char) : Option Nat :=
  ((List.range (hay.length + 1)).filter (fun i => matchAt hay needle i)).getLast?

/-- Python `needle in hay` substring test. -/
def containsSub (hay needle : List Char) : Bool :=
  (findSub hay needle).isSome

/-- Python `str.strip()` (the whitespace characters exercised by this
repository are the ASCII ones covered by `Char.isWhitespace`). -/
def pyStrip (s : List Char) : List Char :=
  ((s.dropWhile Char.isWhitespace).reverse.dropWhile Char.isWhitespace).reverse

/-- Python `str.rstrip()`. -/
def pyRstrip (s : List Char) : List Char :=
  (s.reverse.dropWhile Char.isWhitespace).reverse

/-- Python `str.split(sep)` for a nonempty separator, fuel-based recursion
(each step past a match consumes at least one character, so `s.length`
fuel suffices). -/
def pySplitFuel : Nat → List Char → List Char → List (List Char)
  | 0, s, _ => [s]
  | fuel + 1, s, sep =>
    match findSub s sep with
    | none => [s]
    | some i => s.take i :: pySplitFuel fuel (s.drop (i + sep.length)) sep

/-- Python `str.split(sep)`. -/
def pySplit (s sep : List Char) : List (List Char) :=
  pySplitFuel s.length s sep

/-- Number of occurrences of `needle` produced by a Python-style split. -/
def countSub (s needle : List Char) : Nat :=
  (pySplit s needle).length - 1

/-- Python `str.endswith((c, ...))` for single-character suffixes. -/
def endsWithAny (s : List Char) (cs : List Char) : Bool :=
  match s.getLast? with
  | some c => cs.contains c
  | none => false

/-! ## app/prompts.py constants (lines 9-10) -/

def MAX_TRANSCRIPT_TOKENS : Nat := 10000

def CHAR_TO_TOKEN_RATIO : Nat := 4

/-! ## app/services/utils.py -/

/-- `truncate_transcript` (utils.py lines 12-28): cut to
`MAX_TRANSCRIPT_TOKENS * CHAR_TO_TOKEN_RATIO` characters and append a
truncation note when the estimated token count exceeds the cap
(`len/4 > 10000` iff `len > 40000`). -/
def truncate_transcript (t : List Char) : List Char :=
  if t.length > MAX_TRANSCRIPT_TOKENS * CHAR_TO_TOKEN_RATIO then
    let original_length := t.length
    let cut := t.take (MAX_TRANSCRIPT_TOKENS * CHAR_TO_TOKEN_RATIO)
    cut ++ lc "\n\n[Note: This transcript was truncated from "
        ++ lc (toString original_length) ++ lc " to "
        ++ lc (toString cut.length)
        ++ lc " characters due to token limits.]"
  else t

/-- The `stop_words` list of `find_stop_word_boundary` (utils.py line 38). -/
def stop_words : List (List Char) :=
  [lc ".\n", lc "!\n", lc "?\n", lc ". ", lc "! ", lc "? ", lc "\n\n", lc "; "]

/-- The `for stop_word in stop_words` loop of `find_stop_word_boundary`
(utils.py lines 44-48): fold the best (right-most, Python `pos > best_pos`)
stop-word position, with `best_pos : Int` starting at `-1` and Python
`rfind` returning `-1` on a miss. -/
def best_stop (search : List Char) : List (List Char) → Int × Nat → Int × Nat
  | [], acc => acc
  | sw :: rest, acc =>
    let pos : Int :=
      match rfindSub search sw with
      | none => -1
      | some p => p
    let acc2 := if pos > acc.1 then (pos, sw.length) else acc
    best_stop search rest acc2

/-- `find_stop_word_boundary` (utils.py lines 31-57).  `max_chars` is a
Python int; every value `<= 0` takes the first guard, so it is embedded as
`Nat` with the `= 0` guard. -/
def find_stop_word_boundary (text : List Char) (maxChars : Nat) : Nat :=
  if text = [] ∨ maxChars = 0 then 0
  else if text.length ≤ maxChars then text.length
  else
    let search_text := text.take maxChars
    let best := best_stop search_text stop_words (-1, 0)
    if best.1 ≠ -1 then best.1.toNat + best.2
    else
      match rfindSub search_text [' '] with
      | some p => p + 1
      | none => maxChars

/-! ## app/services/content_processor.py -/

/-- `CONCLUSION_MARKERS` (content_processor.py line 21). -/
def CONCLUSION_MARKERS : List (List Char) :=
  [lc "# Conclusion", lc "## Conclusion", lc "### Conclusion"]

/-- The marker-stripping loop of `_process_chunked` (content_processor.py
lines 146-148): for each marker in order, if it occurs, keep the text
before its first occurrence (`split(marker)[0]`) and strip. -/
def stripConclusion (resp : List Char) : List Char :=
  CONCLUSION_MARKERS.foldl
    (fun r marker =>
      if containsSub r marker then
        pyStrip (match findSub r marker with
                 | some i => r.take i
                 | none => r)
      else r)
    resp

/-- The `previous_context` update of `_process_chunked` (content_processor.py
lines 151-156): the last 10 `". "`-separated sentences, or the whole
response when it has at most 10. -/
def updateContext (r : List Char) : List Char :=
  let sentences := pySplit r (lc ". ")
  if sentences.length > 10 then
    List.intercalate (lc ". ") (sentences.drop (sentences.length - 10))
  else r

/-- The chunk-splitting `while current_pos < len(transcript_text)` loop of
`_process_chunked` (content_processor.py lines 106-115), phrased on the
remaining suffix: each iteration cuts the prefix of length
`find_stop_word_boundary remaining maxChars`.  Fuel-based; `text.length`
fuel suffices because each iteration consumes at least one character
(proved below). -/
def splitChunksFuel : Nat → List Char → Nat → List (List Char)
  | 0, _, _ => []
  | fuel + 1, remaining, maxChars =>
    if remaining = [] then []
    else
      let b := find_stop_word_boundary remaining maxChars
      remaining.take b :: splitChunksFuel fuel (remaining.drop b) maxChars

/-- The chunk list computed by `_process_chunked`. -/
def splitChunks (text : List Char) (maxChars : Nat) : List (List Char) :=
  splitChunksFuel text.length text maxChars

/-- Observable outcome of `_process_chunked`: the returned string, the
`combined_response` buffer handed to the final synthesis call, the raw
final response, and the `stream` argument of every LLM call in order. -/
structure ChunkedResult where
  result : List Char
  combined : List Char
  finalRaw : List Char
  streamFlags : List Bool
  deriving DecidableEq

/-- One iteration of the `for i, chunk in enumerate(chunks)` loop
(content_processor.py lines 122-156).  The LLM collaborator is modelled as
a function from call index to response-or-exception; prompts (built from
the chunk, position and previous context) do not influence this model.
An exception substitutes the empty string.  Only for `i < n - 1` is the
(conclusion-stripped) response appended to the buffer and the previous
context updated, mirroring the guard on line 145. -/
def chunkStep (llm : Nat → Except Unit (List Char)) (stream : Bool) (n : Nat)
    (st : List Char × List Char × List Bool) (ie : Nat × List Char) :
    List Char × List Char × List Bool :=
  let i := ie.1
  let flags := st.2.2 ++ [stream]
  let r0 := match llm i with
            | .ok s => s
            | .error _ => []
  if i < n - 1 then
    let r := stripConclusion r0
    (st.1 ++ lc "\n\n" ++ r, updateContext r, flags)
  else
    (st.1, st.2.1, flags)

/-- `_process_chunked` (content_processor.py lines 93-178).  Pacing sleeps
are timing-only and not modelled.  The final synthesis call (lines
158-176) is issued at call index `n` with `stream=False`; on exception it
degrades to the combined buffer; the returned string is stripped. -/
def processChunked (llm : Nat → Except Unit (List Char)) (text : List Char)
    (maxTokens : Nat) (stream : Bool) : ChunkedResult :=
  let maxChars := maxTokens * CHAR_TO_TOKEN_RATIO
  let chunks := splitChunks text maxChars
  let n := chunks.length
  let st := List.foldl (chunkStep llm stream n) ([], [], []) chunks.enum
  let combined := st.1
  let finalr := match llm n with
                | .ok s => s
                | .error _ => combined
  ⟨pyStrip finalr, combined, finalr, st.2.2 ++ [false]⟩

/-- Which call `VideoProcessor.process` performs. -/
inductive ProcessOutcome where
  | singlePass (transcript : List Char) (stream : Bool)
  | chunked (r : ChunkedResult)
  deriving DecidableEq

/-- `VideoProcessor.process` routing (content_processor.py lines 51-60):
`if duration <= 2400 and stream` truncate and single-pass with
`stream=True`, else chunked with `stream=False` on the untruncated
transcript. -/
def process (llm : Nat → Except Unit (List Char)) (text : List Char)
    (stream : Bool) (duration : Int) (maxTokens : Nat) : ProcessOutcome :=
  if duration ≤ 2400 ∧ stream = true then
    .singlePass (truncate_transcript text) true
  else
    .chunked (processChunked llm text maxTokens false)

/-- `true` exactly on the single-pass outcome. -/
def isSinglePassB : ProcessOutcome → Bool
  | .singlePass _ _ => true
  | .chunked _ => false

/-! ## app/services/transcripts/processor.py -/

/-- Each configured adapter is modelled by the outcome of its
`fetch_transcript` call: a transcript, or the message of the `ValueError`
it raised. -/
abbrev AdapterOutcome := Except (List Char) (List Char)

/-- The `for processor in self.processors` loop of
`TranscriptProcessor.fetch_transcript` (processor.py lines 60-79), with
the running `last_error`. -/
def fetchTranscriptAux : List AdapterOutcome → Option (List Char) → Except (List Char) (List Char)
  | [], none => .error (lc "No transcript processors available")
  | [], some e => .error (lc "All transcript fetching methods failed: " ++ e)
  | p :: rest, lastError =>
    match p with
    | .ok t => .ok t
    | .error e =>
      let _ := lastError
      fetchTranscriptAux rest (some e)

/-- `TranscriptProcessor.fetch_transcript` (processor.py lines 60-79). -/
def fetch_transcript (processors : List AdapterOutcome) : Except (List Char) (List Char) :=
  fetchTranscriptAux processors none

/-- Every adapter in the list failed. -/
def allFailed (processors : List AdapterOutcome) : Prop :=
  ∀ p ∈ processors, ∃ e, p = Except.error e

/-! ## Paragraph-grouping adapters -/

/-- A caption segment as consumed by the paragraph-grouping code:
start time in seconds and text. -/
structure Segment where
  start : ℚ
  text : List Char
  deriving DecidableEq

/-- Python truthiness of the `last_timestamp` variable (`None` and `0`
are falsy). -/
def truthyTime : Option ℚ → Bool
  | none => false
  | some t => decide (t ≠ 0)

/-- Exact rational subtraction, written through `mkRat` so that the kernel
can evaluate it; proved equal to `a - b` in `ratSub_eq` below. -/
def ratSub (a b : ℚ) : ℚ :=
  mkRat (a.num * b.den - b.num * a.den) (a.den * b.den)

/-- Python `f"{x:.1f}"` for the nonnegative, exactly-tenth-representable
times exercised by this development: one decimal digit,
`floor(q*10) = q.num*10/q.den` for `q ≥ 0` (rounding of floats that are
not exact tenths is not modelled). -/
def fmt1 (q : ℚ) : List Char :=
  let t := q.num.toNat * 10 / q.den
  lc (toString (t / 10)) ++ lc "." ++ lc (toString (t % 10))

/-- The `for i, segment in enumerate(transcript_list)` loop of
`YouTubeTranscriptAPIProcessor.fetch_transcript`
(youtube_transcript_api.py lines 58-77): strip the text, skip empty
segments, and close the paragraph on sentence end, on a `> 30` gap since
the last emitted paragraph (absent or zero `last_timestamp` counts as a
gap), or on the last segment. -/
def ytapiLoop (n : Nat) : List Segment → Nat → List (List Char) → Option ℚ →
    List (List Char) → List (List Char)
  | [], _, para, _, acc =>
    if para = [] then acc else acc ++ [List.intercalate (lc " ") para]
  | s :: rest, i, para, last, acc =>
    let text := pyStrip s.text
    if text = [] then ytapiLoop n rest (i + 1) para last acc
    else
      let para2 := para ++ [text]
      let isEnd := endsWithAny text (lc ".!?")
      let gap := if truthyTime last then decide (ratSub s.start (last.getD 0) > 30) else true
      let isLast := decide (i = n - 1)
      if isEnd || gap || isLast then
        ytapiLoop n rest (i + 1) [] (some s.start)
          (acc ++ [List.intercalate (lc " ") para2 ++ lc " [[" ++ fmt1 s.start ++ lc "]]"])
      else
        ytapiLoop n rest (i + 1) para2 last acc

/-- Paragraph grouping of `YouTubeTranscriptAPIProcessor.fetch_transcript`
(youtube_transcript_api.py lines 54-87), after the transcript list has
been fetched. -/
def ytapiFormat (segments : List Segment) : List Char :=
  List.intercalate (lc " ") (ytapiLoop segments.length segments 0 [] none [])

/-- The `for segment in segments` loop of
`YTDLPProcessor.format_transcript_with_timestamps` (ytdlp_processor.py
lines 140-159): append the text unconditionally, close the paragraph on
sentence end (after `rstrip`) or on a `> 30` gap since the previous
segment (absent or zero `last_timestamp` counts as no gap);
`last_timestamp` is updated on every iteration.  Returns the emitted
paragraphs and the leftover paragraph. -/
def ytdlpLoop : List Segment → List (List Char) → Option ℚ →
    List (List Char) → List (List Char) × List (List Char)
  | [], para, _, acc => (acc, para)
  | s :: rest, para, last, acc =>
    let para2 := para ++ [s.text]
    let isEnd := endsWithAny (pyRstrip s.text) (lc ".!?")
    let gap := if truthyTime last then decide (ratSub s.start (last.getD 0) > 30) else false
    if isEnd || gap then
      ytdlpLoop rest [] (some s.start)
        (acc ++ [List.intercalate (lc " ") para2 ++ lc " [[" ++ fmt1 s.start ++ lc "]]"])
    else
      ytdlpLoop rest para2 (some s.start) acc

/-- `YTDLPProcessor.format_transcript_with_timestamps` (ytdlp_processor.py
lines 129-169) at the default `paragraph_timegap=30`: empty input yields
the empty string; a leftover paragraph is emitted with the last segment
start time as its marker. -/
def format_transcript_with_timestamps (segments : List Segment) : List Char :=
  if segments = [] then []
  else
    let st := ytdlpLoop segments [] none []
    let acc2 :=
      if st.2 = [] then st.1
      else
        match segments.getLast? with
        | some s => st.1 ++ [List.intercalate (lc " ") st.2 ++ lc " [[" ++ fmt1 s.start ++ lc "]]"]
        | none => st.1 ++ [List.intercalate (lc " ") st.2]
    List.intercalate (lc " ") acc2

/-! ## app/model_selector.py -/

/-- `DigestMode` (models.py lines 26-34). -/
inductive DigestMode where
  | tldr
  | key_insights
  | comprehensive
  | custom
  | article
  deriving DecidableEq, Fintype

/-- `VideoLength` (model_selector.py lines 11-15). -/
inductive VideoLength where
  | short
  | medium
  | long
  | very_long
  deriving DecidableEq, Fintype

/-- `ModelSelector._categorize_video_length` (model_selector.py lines
121-135): inclusive upper bounds at 10, 30 and 60 minutes. -/
def categorize_video_length (duration_minutes : ℚ) : VideoLength :=
  if duration_minutes ≤ 10 then .short
  else if duration_minutes ≤ 30 then .medium
  else if duration_minutes ≤ 60 then .long
  else .very_long

/-- The `models` table of `ModelSelector._get_default_config`
(model_selector.py lines 54-85). -/
def modelsTable : DigestMode → VideoLength → String
  | .tldr, .short => "llama-3.1-8b-instant"
  | .tldr, .medium => "gemma2-9b-it"
  | .tldr, .long => "meta-llama/llama-4-scout-17b-16e-instruct"
  | .tldr, .very_long => "meta-llama/llama-4-scout-17b-16e-instruct"
  | .key_insights, .short => "gemma2-9b-it"
  | .key_insights, .medium => "meta-llama/llama-4-scout-17b-16e-instruct"
  | .key_insights, .long => "llama-3.3-70b-versatile"
  | .key_insights, .very_long => "deepseek-r1-distill-llama-70b"
  | .comprehensive, .short => "meta-llama/llama-4-scout-17b-16e-instruct"
  | .comprehensive, _ => "llama-3.3-70b-versatile"
  | .article, .short => "meta-llama/llama-4-scout-17b-16e-instruct"
  | .article, _ => "llama-3.3-70b-versatile"
  | .custom, .short => "llama-3.1-8b-instant"
  | .custom, _ => "llama-3.3-70b-versatile"

/-- The `token_limits` table of `ModelSelector._get_default_config`
(model_selector.py lines 86-111); `none` where the `(mode, model)` pair
has no entry. -/
def token_limits : DigestMode → String → Option Nat
  | .tldr, name =>
    if name = "llama-3.1-8b-instant" then some 800
    else if name = "gemma2-9b-it" then some 1000
    else if name = "meta-llama/llama-4-scout-17b-16e-instruct" then some 1200
    else none
  | .key_insights, name =>
    if name = "gemma2-9b-it" then some 2000
    else if name = "meta-llama/llama-4-scout-17b-16e-instruct" then some 2500
    else if name = "llama-3.3-70b-versatile" then some 3000
    else if name = "deepseek-r1-distill-llama-70b" then some 3500
    else none
  | .comprehensive, name =>
    if name = "meta-llama/llama-4-scout-17b-16e-instruct" then some 4000
    else if name = "llama-3.3-70b-versatile" then some 4500
    else if name = "deepseek-r1-distill-llama-70b" then some 5000
    else none
  | .article, name =>
    if name = "meta-llama/llama-4-scout-17b-16e-instruct" then some 6000
    else if name = "deepseek-r1-distill-llama-70b" then some 7000
    else none
  | .custom, name =>
    if name = "llama-3.1-8b-instant" then some 800
    else if name = "llama-3.3-70b-versatile" then some 10000
    else none

/-- The `temperature_settings` table of `ModelSelector._get_default_config`
(model_selector.py lines 112-118). -/
def temperature_settings : DigestMode → ℚ
  | .tldr => mkRat 3 10
  | .key_insights => mkRat 5 10
  | .comprehensive => mkRat 7 10
  | .article => mkRat 8 10
  | .custom => mkRat 6 10

/-- `ModelConfig` (model_selector.py lines 18-22). -/
structure ModelConfig where
  primary_model : String
  max_tokens : Nat
  temperature : ℚ
  deriving DecidableEq

/-- `ModelSelector.get_model_config` (model_selector.py lines 137-174)
over the default configuration: bucket the duration, look up the model,
look up the `(mode, model)` token limit defaulting to 1000, and the
per-mode temperature. -/
def get_model_config (mode : DigestMode) (video_duration : ℚ) : ModelConfig :=
  let length_category := categorize_video_length video_duration
  let primary_model := modelsTable mode length_category
  let max_tokens := (token_limits mode primary_model).getD 1000
  ⟨primary_model, max_tokens, temperature_settings mode⟩

/-! ## app/decorators.py and app/credits.py -/

/-- Invocations observable through the `track_usage` wrapper. -/
inductive UsageEvent where
  | checked
  | opRun
  | deducted
  deriving DecidableEq

/-- `track_usage` (decorators.py lines 12-43) around `check_credits` and
`deduct_credit` (credits.py): run the credit check, then the wrapped
operation, then the deduction; any raised exception propagates (the
`except` clause logs and re-raises).  Each collaborator is modelled by
its outcome; the event list records the invocations in order. -/
def track_usage (check : Except (List Char) Unit) (op : Except (List Char) (List Char))
    (deduct : Except (List Char) Int) : Except (List Char) (List Char) × List UsageEvent :=
  match check with
  | .error e => (.error e, [.checked])
  | .ok _ =>
    match op with
    | .error e => (.error e, [.checked, .opRun])
    | .ok a =>
      match deduct with
      | .error e => (.error e, [.checked, .opRun, .deducted])
      | .ok _ => (.ok a, [.checked, .opRun, .deducted])

/-! ## Concrete LLM collaborators used as test inputs -/

/-- An LLM collaborator that answers every call with `"out"`. -/
def llmOk : Nat → Except Unit (List Char) :=
  fun _ => .ok (lc "out")

/-- An LLM collaborator whose first chunk answer carries a markdown
conclusion heading. -/
def llmConclusion : Nat → Except Unit (List Char) :=
  fun i => if i = 0 then .ok (lc "Body text\n\n## Conclusion\nWrap up.") else .ok (lc "ok")

/-- An LLM collaborator that raises on the second of three chunk calls and
answers `"FINAL"` on the synthesis call. -/
def llmMidFail : Nat → Except Unit (List Char) :=
  fun i =>
    if i = 0 then .ok (lc "R1")
    else if i = 1 then .error ()
    else if i = 2 then .ok (lc "R3")
    else .ok (lc "FINAL")

/-- Two unpunctuated caption segments whose start times are 40 seconds
apart (the scenario of the paragraph-boundary claim). -/
def gapSegments : List Segment :=
  [⟨5, lc "Hello"⟩, ⟨45, lc "world"⟩]

/-! # Supporting lemmas -/

theorem ratSub_eq (a b : ℚ) : ratSub a b = a - b := by
  unfold ratSub
  rw [Rat.sub_def, Rat.normalize_eq_mkRat]

theorem matchAt_bound (hay needle : List Char) (p : Nat)
    (h : matchAt hay needle p = true) (hn : 1 ≤ needle.length) :
    p + needle.length ≤ hay.length := by
  have h2 : (hay.drop p).take needle.length = needle := of_decide_eq_true h
  have h3 := congrArg List.length h2
  rw [List.length_take, List.length_drop] at h3
  omega

theorem rfindSub_matches (hay needle : List Char) (p : Nat)
    (h : rfindSub hay needle = some p) : matchAt hay needle p = true := by
  unfold rfindSub at h
  have hm := List.mem_of_mem_getLast? (l := (List.range (hay.length + 1)).filter
    (fun i => matchAt hay needle i)) (a := p) h
  exact (List.mem_filter.mp hm).2

theorem best_stop_sound (search : List Char) :
    ∀ (l : List (List Char)) (acc : Int × Nat),
      (∀ sw ∈ l, sw.length = 2) →
      -1 ≤ acc.1 →
      (acc.1 ≠ -1 → acc.2 = 2 ∧ acc.1.toNat + acc.2 ≤ search.length) →
      -1 ≤ (best_stop search l acc).1 ∧
        ((best_stop search l acc).1 ≠ -1 →
          (best_stop search l acc).2 = 2 ∧
            (best_stop search l acc).1.toNat + (best_stop search l acc).2 ≤ search.length) := by
  intro l
  induction l with
  | nil =>
    intro acc _ hge hacc
    exact ⟨hge, hacc⟩
  | cons sw rest ih =>
    intro acc hl hge hacc
    rw [best_stop]
    have hsw : sw.length = 2 := hl sw (List.mem_cons_self _ _)
    have hrest : ∀ s ∈ rest, s.length = 2 := fun s hs => hl s (List.mem_cons_of_mem _ hs)
    rcases hrf : rfindSub search sw with _ | p
    · simp only [hrf]
      rw [if_neg (by omega)]
      exact ih acc hrest hge hacc
    · have hb := matchAt_bound search sw p (rfindSub_matches _ _ _ hrf) (by omega)
      simp only [hrf]
      by_cases hgt : (p : Int) > acc.1
      · rw [if_pos hgt]
        exact ih _ hrest (by simp; omega) (by intro _; exact ⟨hsw, by simp; omega⟩)
      · rw [if_neg hgt]
        exact ih acc hrest hge hacc

theorem fswb_bounds (text : List Char) (maxChars : Nat)
    (ht : text ≠ []) (hm : 1 ≤ maxChars) :
    1 ≤ find_stop_word_boundary text maxChars ∧
      find_stop_word_boundary text maxChars ≤ text.length := by
  have htl : 1 ≤ text.length := List.length_pos.mpr ht
  unfold find_stop_word_boundary
  rw [if_neg (by push_neg; exact ⟨ht, by omega⟩)]
  by_cases hlen : text.length ≤ maxChars
  · rw [if_pos hlen]
    exact ⟨htl, le_rfl⟩
  · rw [if_neg hlen]
    have hsearch : (text.take maxChars).length = maxChars := by
      rw [List.length_take]; omega
    have hsw : ∀ sw ∈ stop_words, sw.length = 2 := by decide
    have hres := best_stop_sound (text.take maxChars) stop_words (-1, 0) hsw
      (by norm_num) (by intro h; exact absurd rfl h)
    rw [hsearch] at hres
    by_cases hb1 : (best_stop (text.take maxChars) stop_words (-1, 0)).1 ≠ -1
    · rw [if_pos hb1]
      have := hres.2 hb1
      omega
    · rw [if_neg hb1]
      rcases hsp : rfindSub (text.take maxChars) [' '] with _ | p
      · simp only [hsp]
        omega
      · have hp := matchAt_bound _ _ _ (rfindSub_matches _ _ _ hsp) (by decide)
        rw [hsearch] at hp
        simp only [List.length_singleton] at hp
        simp only [hsp]
        omega

theorem splitChunksFuel_flatten (mc : Nat) (hm : 1 ≤ mc) :
    ∀ (fuel : Nat) (rem : List Char), rem.length ≤ fuel →
      (splitChunksFuel fuel rem mc).flatten = rem := by
  intro fuel
  induction fuel with
  | zero =>
    intro rem h
    have hr : rem = [] := List.eq_nil_of_length_eq_zero (by omega)
    rw [hr]
    rfl
  | succ f ih =>
    intro rem h
    by_cases hr : rem = []
    · rw [hr]
      rfl
    · have hb := fswb_bounds rem mc hr hm
      rw [splitChunksFuel, if_neg hr, List.flatten_cons]
      rw [ih (rem.drop (find_stop_word_boundary rem mc))
        (by rw [List.length_drop]; omega)]
      exact List.take_append_drop _ _

theorem splitChunksFuel_ne_nil (mc : Nat) (hm : 1 ≤ mc) :
    ∀ (fuel : Nat) (rem : List Char), ∀ c ∈ splitChunksFuel fuel rem mc, c ≠ [] := by
  intro fuel
  induction fuel with
  | zero =>
    intro rem c hc
    cases hc
  | succ f ih =>
    intro rem c hc
    by_cases hr : rem = []
    · rw [hr] at hc
      cases hc
    · rw [splitChunksFuel, if_neg hr] at hc
      rcases List.mem_cons.mp hc with h | h
      · have hb := (fswb_bounds rem mc hr hm).1
        have htl : 1 ≤ rem.length := List.length_pos.mpr hr
        rw [h]
        intro hcontra
        have := congrArg List.length hcontra
        rw [List.length_take] at this
        simp only [List.length_nil] at this
        omega
      · exact ih _ c h

theorem chunkStep_flags_false (llm : Nat → Except Unit (List Char)) (n : Nat) :
    ∀ (l : List (Nat × List Char)) (st : List Char × List Char × List Bool),
      (∀ f ∈ st.2.2, f = false) →
      ∀ f ∈ (List.foldl (chunkStep llm false n) st l).2.2, f = false := by
  intro l
  induction l with
  | nil =>
    intro st h f hf
    exact h f hf
  | cons e rest ih =>
    intro st h f hf
    rw [List.foldl_cons] at hf
    refine ih _ ?_ f hf
    intro g hg
    have hflags : (chunkStep llm false n st e).2.2 = st.2.2 ++ [false] := by
      unfold chunkStep
      by_cases hi : e.1 < n - 1
      · rw [if_pos hi]
      · rw [if_neg hi]
    rw [hflags] at hg
    rcases List.mem_append.mp hg with h1 | h1
    · exact h g h1
    · simpa using h1

theorem processChunked_flags_false (llm : Nat → Except Unit (List Char))
    (text : List Char) (mt : Nat) :
    ∀ f ∈ (processChunked llm text mt false).streamFlags, f = false := by
  intro f hf
  unfold processChunked at hf
  simp only at hf
  rcases List.mem_append.mp hf with h | h
  · exact chunkStep_flags_false llm _ _ _ (by intro g hg; cases hg) f h
  · simpa using h

theorem fetchAux_all_failed :
    ∀ (ps : List AdapterOutcome) (le : Option (List Char)) (eLast : List Char),
      allFailed ps → ps.getLast? = some (Except.error eLast) →
      fetchTranscriptAux ps le =
        .error (lc "All transcript fetching methods failed: " ++ eLast) := by
  intro ps
  induction ps with
  | nil =>
    intro le eLast _ hLast
    cases hLast
  | cons p rest ih =>
    intro le eLast hAll hLast
    obtain ⟨e, he⟩ := hAll p (List.mem_cons_self _ _)
    subst he
    rcases rest with _ | ⟨q, t⟩
    · have hp : Except.error (ε := List Char) (α := List Char) e = .error eLast := by
        simpa using hLast
      rw [fetchTranscriptAux]
      rw [show e = eLast from by injection hp]
      rfl
    · rw [List.getLast?_cons_cons] at hLast
      rw [fetchTranscriptAux]
      exact ih (some e) eLast (fun s hs => hAll s (List.mem_cons_of_mem _ hs)) hLast

theorem fetchAux_error_all_failed :
    ∀ (ps : List AdapterOutcome) (le : Option (List Char)) (m : List Char),
      fetchTranscriptAux ps le = .error m → allFailed ps := by
  intro ps
  induction ps with
  | nil =>
    intro le m _ p hp
    cases hp
  | cons p rest ih =>
    intro le m h q hq
    rcases p with e | t
    · rcases List.mem_cons.mp hq with rfl | hq2
      · exact ⟨e, rfl⟩
      · exact ih (some e) m (by rw [fetchTranscriptAux] at h; exact h) q hq2
    · rw [fetchTranscriptAux] at h
      cases h

/-! # Claims -/

/-- C1: for every input text and every `max_tokens >= 1`, the chunk list
computed by `_process_chunked` (repeated slicing at
`find_stop_word_boundary` under a `max_tokens * 4`-character budget)
concatenates back to the input text exactly, with no characters dropped or
duplicated. -/
theorem chunked_concat_exact (text : List Char) (maxTokens : Nat)
    (h : 1 ≤ maxTokens) :
    (splitChunks text (maxTokens * CHAR_TO_TOKEN_RATIO)).flatten = text :=
  splitChunksFuel_flatten (maxTokens * CHAR_TO_TOKEN_RATIO)
    (by simp only [ CHAR_TO_TOKEN_RATIO]; omega) text.length text le_rfl

/-- C1 witness: concrete instance of `chunked_concat_exact` at
`max_tokens = 1`. -/
theorem chunked_concat_exact_witness :
    1 ≤ 1 ∧
      (splitChunks (lc "ab cd. ef gh. ij") (1 * CHAR_TO_TOKEN_RATIO)).flatten =
        lc "ab cd. ef gh. ij" :=
  ⟨le_rfl, chunked_concat_exact (lc "ab cd. ef gh. ij") 1 le_rfl⟩

/-- C2: the code does NOT reduce the intermediate chunk output
`"Body text\n\n## Conclusion\nWrap up."` to `"Body text"`: the marker
`"# Conclusion"` is found inside `"## Conclusion"`, so the split keeps the
first hash and the stored/combined text is `"Body text\n\n#"`. -/
theorem conclusion_strip_residue :
    stripConclusion (lc "Body text\n\n## Conclusion\nWrap up.") = lc "Body text\n\n#" ∧
    lc "Body text\n\n#" ≠ lc "Body text" ∧
    (processChunked llmConclusion (lc "aaaabbbb") 1 false).combined =
      lc "\n\n" ++ lc "Body text\n\n#" :=
  ⟨by decide, by decide, by decide⟩

/-- C3: with 3 chunks and the LLM raising on chunk 2, the request does not
fail and chunk 2 contributes an empty string, but the combined buffer is
`"\n\nR1\n\n"`: it contains chunk 1's output and NOT chunk 3's output,
because the append is guarded by `i < len(chunks) - 1` and the last chunk
is never appended. -/
theorem chunk_failure_last_chunk_dropped :
    (splitChunks (lc "aaaabbbbcccc") (1 * CHAR_TO_TOKEN_RATIO)).length = 3 ∧
    (processChunked llmMidFail (lc "aaaabbbbcccc") 1 false).combined = lc "\n\nR1\n\n" ∧
    containsSub (processChunked llmMidFail (lc "aaaabbbbcccc") 1 false).combined
      (lc "R1") = true ∧
    containsSub (processChunked llmMidFail (lc "aaaabbbbcccc") 1 false).combined
      (lc "R3") = false ∧
    (processChunked llmMidFail (lc "aaaabbbbcccc") 1 false).result = lc "FINAL" :=
  ⟨by decide, by decide, by decide, by decide, by decide⟩

/-- C4 counterexample: at `duration = 2400` exactly (not below the
threshold) with streaming requested, `process` still performs the
single-pass call, refuting the claim's strict reading of "below". -/
theorem single_pass_at_threshold :
    isSinglePassB (process llmOk (lc "hi") true 2400 1) = true ∧
    ¬((2400 : Int) < 2400) :=
  ⟨rfl, by decide⟩

/-- C4 amended: a single-pass call is performed exactly when the duration
is AT MOST 2400 seconds (threshold inclusive) and streaming is requested,
in which case the transcript is first truncated by `truncate_transcript`
(the 10000-token cap at 4 characters per token); every other call enters
chunked processing on the untruncated transcript. -/
theorem routing_single_pass_amended (llm : Nat → Except Unit (List Char))
    (text : List Char) (stream : Bool) (duration : Int) (maxTokens : Nat) :
    (isSinglePassB (process llm text stream duration maxTokens) = true ↔
      duration ≤ 2400 ∧ stream = true) ∧
    (duration ≤ 2400 ∧ stream = true →
      process llm text stream duration maxTokens =
        .singlePass (truncate_transcript text) true) ∧
    (¬(duration ≤ 2400 ∧ stream = true) →
      process llm text stream duration maxTokens =
        .chunked (processChunked llm text maxTokens false)) := by
  unfold process
  by_cases h : duration ≤ 2400 ∧ stream = true
  · rw [if_pos h]
    exact ⟨⟨fun _ => h, fun _ => rfl⟩, fun _ => rfl, fun hc => absurd h hc⟩
  · rw [if_neg h]
    exact ⟨⟨fun hb => absurd hb (by simp [isSinglePassB]), fun hh => absurd hh h⟩,
      fun hh => absurd hh h, fun _ => rfl⟩

/-- C4 witness: concrete instance of `routing_single_pass_amended` at the
threshold boundary. -/
theorem routing_single_pass_amended_witness :
    ((2400 : Int) ≤ 2400 ∧ true = true) ∧
    process llmOk (lc "t") true 2400 1 = .singlePass (truncate_transcript (lc "t")) true :=
  ⟨⟨by decide, rfl⟩,
    (routing_single_pass_amended llmOk (lc "t") true 2400 1).2.1 ⟨by decide, rfl⟩⟩

/-- C5: the fallback chain fails only after every adapter failed; when all
configured adapters fail it raises the aggregate message carrying the last
adapter's failure; an empty adapter list raises the distinct
"No transcript processors available" message, which differs from every
aggregate message, so the caller can distinguish the two failures. -/
theorem fallback_chain_failure_semantics :
    (∀ (ps : List AdapterOutcome) (eLast : List Char),
        allFailed ps → ps.getLast? = some (Except.error eLast) →
        fetch_transcript ps =
          .error (lc "All transcript fetching methods failed: " ++ eLast)) ∧
    fetch_transcript [] = .error (lc "No transcript processors available") ∧
    (∀ e : List Char,
        lc "All transcript fetching methods failed: " ++ e ≠
          lc "No transcript processors available") ∧
    (∀ (ps : List AdapterOutcome) (m : List Char),
        fetch_transcript ps = .error m → allFailed ps) := by
  refine ⟨fun ps eLast hAll hLast => fetchAux_all_failed ps none eLast hAll hLast,
    rfl, ?_, fun ps m h => fetchAux_error_all_failed ps none m h⟩
  intro e h
  have hlen := congrArg List.length h
  rw [List.length_append] at hlen
  have h1 : (lc "All transcript fetching methods failed: ").length = 40 := rfl
  have h2 : (lc "No transcript processors available").length = 34 := rfl
  omega

/-- C5 witness: two failing adapters produce the aggregate error with the
last failure message. -/
theorem fallback_chain_failure_semantics_witness :
    fetch_transcript [Except.error (lc "e1"), Except.error (lc "e2")] =
      .error (lc "All transcript fetching methods failed: " ++ lc "e2") := by
  have hAll : allFailed [Except.error (lc "e1"), Except.error (lc "e2")] := by
    intro p hp
    rcases List.mem_cons.mp hp with h | h
    · exact ⟨lc "e1", h⟩
    · rcases List.mem_cons.mp h with h2 | h2
      · exact ⟨lc "e2", h2⟩
      · cases h2
  exact fallback_chain_failure_semantics.1 _ (lc "e2") hAll rfl

/-- C6 counterexample: on two unpunctuated sentences 40 seconds apart, the
YTDLP adapter emits a SINGLE paragraph with a single timestamp marker (it
treats a missing previous timestamp as no gap and appends the gapped
segment before splitting), refuting "every paragraph-grouping adapter
produces two separate paragraphs". -/
theorem ytdlp_merges_gap_paragraphs :
    format_transcript_with_timestamps gapSegments = lc "Hello world [[45.0]]" ∧
    countSub (format_transcript_with_timestamps gapSegments) (lc "[[") = 1 :=
  ⟨by decide, by decide⟩

/-- C6 amended: on two unpunctuated sentences 40 seconds apart, the
YouTube-Transcript-API adapter (whose rule treats a missing previous
paragraph timestamp as a gap and also splits on the last segment) emits
two separate paragraphs with distinct timestamp markers, while the YTDLP
adapter merges them into one paragraph with a single marker. -/
theorem paragraph_rule_amended :
    ytapiFormat gapSegments = lc "Hello [[5.0]] world [[45.0]]" ∧
    countSub (ytapiFormat gapSegments) (lc "[[") = 2 ∧
    format_transcript_with_timestamps gapSegments = lc "Hello world [[45.0]]" ∧
    countSub (format_transcript_with_timestamps gapSegments) (lc "[[") = 1 :=
  ⟨by decide, by decide, by decide, by decide⟩

/-- C7: `get_model_config` is a pure function of `(mode, duration)` (equal
inputs give equal `ModelConfig`s) and the boundary durations 10, 30 and 60
minutes land in the lower buckets (short, medium, long: inclusive upper
bounds), so the configuration at the boundary equals the one strictly
inside the lower bucket. -/
theorem model_selector_pure_and_boundaries :
    (∀ (m : DigestMode) (d1 d2 : ℚ), d1 = d2 →
        get_model_config m d1 = get_model_config m d2) ∧
    categorize_video_length 10 = .short ∧
    categorize_video_length 30 = .medium ∧
    categorize_video_length 60 = .long ∧
    (∀ m : DigestMode,
        get_model_config m 10 = get_model_config m 5 ∧
        get_model_config m 30 = get_model_config m 11 ∧
        get_model_config m 60 = get_model_config m 31) :=
  ⟨fun m d1 d2 h => by rw [h], by decide, by decide, by decide, by decide⟩

/-- C7 witness: concrete instance of the purity component of
`model_selector_pure_and_boundaries`. -/
theorem model_selector_pure_witness :
    get_model_config DigestMode.tldr 7 = get_model_config DigestMode.tldr 7 :=
  model_selector_pure_and_boundaries.1 DigestMode.tldr 7 7 rfl

/-- C8: for nonempty text and `max_chars >= 1`, `find_stop_word_boundary`
returns a value between 1 and the text length, so every chunk of the
splitting loop is nonempty and each iteration advances by at least one
character (the loop terminates). -/
theorem stop_word_boundary_bounds (text : List Char) (maxChars : Nat)
    (h1 : text ≠ []) (h2 : 1 ≤ maxChars) :
    (1 ≤ find_stop_word_boundary text maxChars ∧
      find_stop_word_boundary text maxChars ≤ text.length) ∧
    ∀ c ∈ splitChunks text maxChars, c ≠ [] :=
  ⟨fswb_bounds text maxChars h1 h2,
    fun c hc => splitChunksFuel_ne_nil maxChars h2 text.length text c hc⟩

/-- C8 witness: concrete instance of `stop_word_boundary_bounds`. -/
theorem stop_word_boundary_bounds_witness :
    (lc "hello world" ≠ [] ∧ 1 ≤ 5) ∧
    ((1 ≤ find_stop_word_boundary (lc "hello world") 5 ∧
        find_stop_word_boundary (lc "hello world") 5 ≤ (lc "hello world").length) ∧
      ∀ c ∈ splitChunks (lc "hello world") 5, c ≠ []) :=
  ⟨⟨by decide, by decide⟩,
    stop_word_boundary_bounds (lc "hello world") 5 (by decide) (by decide)⟩

/-- C9: `track_usage` runs the credit check before the wrapped operation
and the deduction only after the operation succeeds (the event trace is
always a prefix of check-op-deduct); when the wrapped operation raises,
the error is re-raised and the deduction is never invoked. -/
theorem track_usage_check_deduct_order :
    ∀ (check : Except (List Char) Unit) (op : Except (List Char) (List Char))
      (deduct : Except (List Char) Int),
      (track_usage check op deduct).2.isPrefixOf
          [UsageEvent.checked, UsageEvent.opRun, UsageEvent.deducted] = true ∧
      (UsageEvent.deducted ∈ (track_usage check op deduct).2 → ∃ a, op = .ok a) ∧
      (∀ e, check = .ok () → op = .error e →
        track_usage check op deduct = (.error e, [UsageEvent.checked, UsageEvent.opRun])) := by
  intro check op deduct
  rcases check with ce | cu
  · refine ⟨rfl, ?_, ?_⟩
    · intro hm
      simp [track_usage] at hm
    · intro e hc
      cases hc
  · cases cu
    rcases op with oe | oa
    · refine ⟨rfl, ?_, ?_⟩
      · intro hm
        simp [track_usage] at hm
      · intro e _ hop
        cases hop
        rfl
    · rcases deduct with de | da
      · exact ⟨rfl, fun _ => ⟨oa, rfl⟩, fun e _ hop => by cases hop⟩
      · exact ⟨rfl, fun _ => ⟨oa, rfl⟩, fun e _ hop => by cases hop⟩

/-- C9 witness: concrete instance of `track_usage_check_deduct_order` with
a failing wrapped operation. -/
theorem track_usage_order_witness :
    track_usage (.ok ()) (.error (lc "boom")) (.ok 3) =
      (.error (lc "boom"), [UsageEvent.checked, UsageEvent.opRun]) :=
  (track_usage_check_deduct_order (.ok ()) (.error (lc "boom")) (.ok 3)).2.2
    (lc "boom") rfl rfl

/-- C10: whenever `process` takes the chunked path, every LLM call it
issues (each per-chunk call and the final synthesis call) is made with
`stream = false`, and the function returns the stripped final string, even
when the caller requested streaming. -/
theorem chunked_never_streams (llm : Nat → Except Unit (List Char)) (text : List Char)
    (stream : Bool) (duration : Int) (maxTokens : Nat) (r : ChunkedResult)
    (h : process llm text stream duration maxTokens = .chunked r) :
    (∀ f ∈ r.streamFlags, f = false) ∧ r.result = pyStrip r.finalRaw := by
  unfold process at h
  by_cases hc : duration ≤ 2400 ∧ stream = true
  · rw [if_pos hc] at h
    cases h
  · rw [if_neg hc] at h
    injection h with h2
    subst h2
    exact ⟨processChunked_flags_false llm text maxTokens, rfl⟩

/-- C10 witness: concrete instance of `chunked_never_streams` with
streaming requested and a duration above the threshold. -/
theorem chunked_never_streams_witness :
    (∀ f ∈ (processChunked llmOk (lc "ab") 1 false).streamFlags, f = false) ∧
    (processChunked llmOk (lc "ab") 1 false).result =
      pyStrip (processChunked llmOk (lc "ab") 1 false).finalRaw :=
  chunked_never_streams llmOk (lc "ab") true 3000 1
    (processChunked llmOk (lc "ab") 1 false) rfl

end Digestly
